import Mathlib

set_option maxRecDepth 8000

/-! Shallow embedding of the chaos repository's simulation core.

Real values are modelled as rationals (the source does exact-form IEEE
arithmetic on doubles; every claim under test concerns control flow and
exact algebraic identities, not rounding).  numpy's NaN fill value, which
the source uses purely as an "unset" sentinel and never feeds back into
arithmetic, is modelled as `Option.none`.  Python exceptions
(`ValueError` from `return_periods`, `IndexError` from `periods[0]` on an
empty row list and from seeding a zero-length iteration axis) are modelled
with `Option`/`Except`. -/

/-- Default relative tolerance of the packaged revision
(src/chaos/main.py line 21). -/
def DEFAULT_RELATIVE_TOLERANCE : ℚ := 1 / 1000000

/-- numpy.allclose's default absolute tolerance `atol=1e-8`; the source calls
`numpy.allclose(first, second, rtol=relative_tolerance)` leaving `atol` at
this default. -/
def NUMPY_ATOL : ℚ := 1 / 100000000

/-- Python index arithmetic for a slice endpoint on a sequence of length `n`:
a negative index counts from the end and is clamped below by 0, a
nonnegative index is clamped above by `n`. -/
def pyidx (n : Nat) (i : Int) : Nat :=
  if i < 0 then ((n : Int) + i).toNat else min i.toNat n

/-- Python slice `xs[a:]`. -/
def pysliceFrom (xs : List ℚ) (a : Int) : List ℚ :=
  xs.drop (pyidx xs.length a)

/-- Python slice `xs[a:b]`. -/
def pyslice (xs : List ℚ) (a b : Int) : List ℚ :=
  (xs.take (pyidx xs.length b)).drop (pyidx xs.length a)

/-- `return_periods` (src/chaos/main.py lines 135-157, identical in
src/main.py lines 68-90): returns the last `period` values and the `period`
values immediately before them; the source raises `ValueError` (here:
`none`) when the curve has fewer than `2 * period` points. -/
def return_periods (curve : List ℚ) (period : Nat) :
    Option (List ℚ × List ℚ) :=
  if curve.length < 2 * period then none
  else
    let first_period_start : Int := -(period : Int)
    let second_period_start : Int := first_period_start - period
    let second_period_end : Int := first_period_start
    some (pysliceFrom curve first_period_start,
          pyslice curve second_period_start second_period_end)

/-- Elementwise numpy.allclose with default `atol`:
`|a - b| <= atol + rtol * |b|` for corresponding elements.  In every call
the source makes, both windows have the same length, so the zip loses no
element. -/
def allclose (a b : List ℚ) (rtol : ℚ) : Bool :=
  (a.zip b).all (fun pr => decide (|pr.1 - pr.2| ≤ NUMPY_ATOL + rtol * |pr.2|))

/-- `is_period_stable` (src/chaos/main.py lines 160-186): `false` when
`return_periods` fails (the `ValueError` is caught), otherwise
numpy.allclose of the two windows under the given relative tolerance. -/
def is_period_stable (curve : List ℚ) (period : Nat)
    (relative_tolerance : ℚ) : Bool :=
  match return_periods curve period with
  | none => false
  | some fs => allclose fs.1 fs.2 relative_tolerance

/-- `stable_period` (src/chaos/main.py lines 189-209): first period in
`range(1, max_period + 1)` that is stable, else `None`. -/
def stable_period (curve : List ℚ) (max_period : Nat)
    (relative_tolerance : ℚ) : Option Nat :=
  (List.range' 1 max_period).find?
    (fun period => is_period_stable curve period relative_tolerance)

/-- `logistic` (src/chaos/main.py lines 212-222, identical in src/main.py
lines 145-155). -/
def logistic (x r : ℚ) : ℚ := r * x * (1 - x)

/-- The trajectory of one (parameter, initial state) pair.  The source
stores column `i` as `logistic(states[depth, :, i-1], parameter)`, so the
stored column `i` equals the `i`-fold iterate of `logistic` at the seed. -/
def traj (r x0 : ℚ) : Nat → ℚ
  | 0 => x0
  | i + 1 => logistic (traj r x0 i) r

/-- The slice `states[depth, row, :iteration]` read by the engine's
stability check: the already-stored columns `0 .. iteration - 1`. -/
def computedCurve (r x0 : ℚ) (iteration : Nat) : List ℚ :=
  (List.range iteration).map (traj r x0)

/-- Python truthiness of one entry of the engine's `periods` list:
`None` is falsy, an `int` is truthy iff nonzero (`numpy.all` tests
elementwise truthiness). -/
def pyTruthy : Option Nat → Bool
  | none => false
  | some n => decide (n ≠ 0)

/-- The engine line `period = periods[0] if numpy.all(periods) else nan`
(src/chaos/main.py line 298; src/main.py line 206 with `None` for `nan`).
`periods[0]` raises `IndexError` on an empty list, which happens exactly
when `numpy.all` of the empty list (`True`) selects the first branch. -/
def aggregate_period (periods : List (Option Nat)) :
    Except String (Option Nat) :=
  if periods.all pyTruthy then
    match periods with
    | [] => .error "IndexError"
    | p :: _ => .ok p
  else .ok none

/-- One parameter's iteration loop `for iteration in range(1, max_iteration)`
of `calculate_curves` (src/chaos/main.py lines 283-302), over the list of
remaining iteration numbers.  Returns the break iteration (`none` when the
loop ran to completion) and the parameter's period entry, an
`Option ℚ` because the source stores it in a float array where NaN marks
"undetermined". -/
def runIters (xs : List ℚ) (r : ℚ) (max_period : Nat)
    (relative_tolerance : ℚ) : List Nat → Except String (Option Nat × Option ℚ)
  | [] => .ok (none, none)
  | i :: rest =>
    let newest := xs.map (fun x0 => traj r x0 i)
    let periods := xs.map
      (fun x0 => stable_period (computedCurve r x0 i) max_period
        relative_tolerance)
    match aggregate_period periods with
    | .error e => .error e
    | .ok period =>
      if newest.any (fun v => decide (v < 0)) || period.isSome then
        .ok (some i, period.map (fun n : Nat => (n : ℚ)))
      else runIters xs r max_period relative_tolerance rest

/-- Sequential loop over the parameters; a raised exception at one depth
aborts the whole call, as in Python. -/
def mapExcept (f : α → Except ε β) : List α → Except ε (List β)
  | [] => .ok []
  | a :: as =>
    match f a with
    | .error e => .error e
    | .ok b =>
      match mapExcept f as with
      | .error e => .error e
      | .ok bs => .ok (b :: bs)

/-- The xarray Dataset built by `calculate_curves` (src/chaos/main.py lines
304-314): the 3D value array, the per-parameter periods, and the coordinate
labels. -/
structure StudyResult where
  value : List (List (List (Option ℚ)))
  period : List (Option ℚ)
  r : List ℚ
  x_0 : List ℚ
  iteration : List Nat
deriving DecidableEq

/-- `calculate_curves` (src/chaos/main.py lines 238-316).  With
`max_iteration = 0` the seeding line `states[:, :, 0] = initial_states`
raises `IndexError` on the zero-length iteration axis.  Otherwise columns
`0 .. b` are stored for each parameter, where `b` is the break iteration
(or `max_iteration - 1` when the loop completes), and the remaining slots
keep the NaN fill (`none`). -/
def calculate_curves (initial_states parameters : List ℚ)
    (max_period max_iteration : Nat) (relative_tolerance : ℚ) :
    Except String StudyResult :=
  if max_iteration = 0 then .error "IndexError"
  else
    (mapExcept
      (fun r => runIters initial_states r max_period relative_tolerance
        (List.range' 1 (max_iteration - 1)))
      parameters).map
      (fun results =>
        { value := (parameters.zip results).map
            (fun pr => initial_states.map
              (fun x0 => (List.range max_iteration).map
                (fun i =>
                  if i ≤ pr.2.1.getD (max_iteration - 1) then
                    some (traj pr.1 x0 i)
                  else none))),
          period := results.map Prod.snd,
          r := parameters,
          x_0 := initial_states,
          iteration := List.range max_iteration })

/-- Same per-parameter loop as `runIters`, from the earlier revision
`calculate_states` (src/main.py lines 192-209); the only difference is the
sentinel for an undetermined period, Python `None` in a plain list instead
of NaN in a float array, so the period entry stays an `Option Nat`. -/
def runItersS (xs : List ℚ) (r : ℚ) (max_period : Nat)
    (relative_tolerance : ℚ) : List Nat → Except String (Option Nat × Option Nat)
  | [] => .ok (none, none)
  | i :: rest =>
    let newest := xs.map (fun x0 => traj r x0 i)
    let periods := xs.map
      (fun x0 => stable_period (computedCurve r x0 i) max_period
        relative_tolerance)
    match aggregate_period periods with
    | .error e => .error e
    | .ok period =>
      if newest.any (fun v => decide (v < 0)) || period.isSome then
        .ok (some i, period)
      else runItersS xs r max_period relative_tolerance rest

/-- `calculate_states` (src/main.py lines 158-223): identical array and
loop structure; returns the `(states, parameter_periods)` tuple rather
than the Dataset. -/
def calculate_states (initial_states parameters : List ℚ)
    (max_period max_iteration : Nat) (relative_tolerance : ℚ) :
    Except String (List (List (List (Option ℚ))) × List (Option Nat)) :=
  if max_iteration = 0 then .error "IndexError"
  else
    (mapExcept
      (fun r => runItersS initial_states r max_period relative_tolerance
        (List.range' 1 (max_iteration - 1)))
      parameters).map
      (fun results =>
        ((parameters.zip results).map
            (fun pr => initial_states.map
              (fun x0 => (List.range max_iteration).map
                (fun i =>
                  if i ≤ pr.2.1.getD (max_iteration - 1) then
                    some (traj pr.1 x0 i)
                  else none))),
          results.map Prod.snd))

/-- Value stored at (parameter `d`, row `rw`, iteration `i`) of an engine
result; `none` for an exception, an out-of-range index, or an unset slot. -/
def resultValue (e : Except String StudyResult) (d rw i : Nat) : Option ℚ :=
  match e with
  | .ok res => ((res.value.getD d []).getD rw []).getD i none
  | .error _ => none

/-- Per-parameter period annotations of an engine result; `[]` for an
exception. -/
def resultPeriod (e : Except String StudyResult) : List (Option ℚ) :=
  match e with
  | .ok res => res.period
  | .error _ => []

theorem resultValue_ok (res : StudyResult) (d w i : Nat) :
    resultValue (.ok res) d w i =
      ((res.value.getD d []).getD w []).getD i none := rfl

theorem resultPeriod_ok (res : StudyResult) :
    resultPeriod (.ok res) = res.period := rfl

/-- Engine variant following the specification's words for the stability
check: after updating iteration `i` the detector is run on the prefix
`value[p, row, :i+1]`, which includes the value just computed.  Kept only
to compare against the source's behaviour, which passes `:iteration`. -/
def runItersIncl (xs : List ℚ) (r : ℚ) (max_period : Nat)
    (relative_tolerance : ℚ) : List Nat → Except String (Option Nat × Option ℚ)
  | [] => .ok (none, none)
  | i :: rest =>
    let newest := xs.map (fun x0 => traj r x0 i)
    let periods := xs.map
      (fun x0 => stable_period (computedCurve r x0 (i + 1)) max_period
        relative_tolerance)
    match aggregate_period periods with
    | .error e => .error e
    | .ok period =>
      if newest.any (fun v => decide (v < 0)) || period.isSome then
        .ok (some i, period.map (fun n : Nat => (n : ℚ)))
      else runItersIncl xs r max_period relative_tolerance rest

/-- `calculate_curves` as the specification describes it for claim
comparison: same as `calculate_curves` but the stability check sees the
prefix including the just-written column. -/
def calculate_curves_incl (initial_states parameters : List ℚ)
    (max_period max_iteration : Nat) (relative_tolerance : ℚ) :
    Except String StudyResult :=
  if max_iteration = 0 then .error "IndexError"
  else
    (mapExcept
      (fun r => runItersIncl initial_states r max_period relative_tolerance
        (List.range' 1 (max_iteration - 1)))
      parameters).map
      (fun results =>
        { value := (parameters.zip results).map
            (fun pr => initial_states.map
              (fun x0 => (List.range max_iteration).map
                (fun i =>
                  if i ≤ pr.2.1.getD (max_iteration - 1) then
                    some (traj pr.1 x0 i)
                  else none))),
          period := results.map Prod.snd,
          r := parameters,
          x_0 := initial_states,
          iteration := List.range max_iteration })

/-! Helper lemmas about the detector. -/

theorem pyidx_neg (n m : Nat) (hm : 1 ≤ m) :
    pyidx n (-(m : Int)) = n - m := by
  unfold pyidx
  rw [if_pos (by omega)]
  omega

theorem return_periods_eq_none_iff (curve : List ℚ) (p : Nat) :
    return_periods curve p = none ↔ curve.length < 2 * p := by
  unfold return_periods
  by_cases h : curve.length < 2 * p
  · simp [h]
  · simp [h]

theorem return_periods_eq_some (curve : List ℚ) (p : Nat) (hp : 1 ≤ p)
    (hlen : 2 * p ≤ curve.length) :
    return_periods curve p =
      some (curve.drop (curve.length - p),
            (curve.drop (curve.length - 2 * p)).take p) := by
  unfold return_periods
  rw [if_neg (by omega)]
  simp only [pysliceFrom, pyslice]
  have h1 : pyidx curve.length (-(p : Int)) = curve.length - p :=
    pyidx_neg _ _ hp
  have h2 : pyidx curve.length (-(p : Int) - (p : Int)) =
      curve.length - 2 * p := by
    unfold pyidx
    rw [if_pos (by omega)]
    omega
  rw [h1, h2]
  have h3 : (curve.drop (curve.length - 2 * p)).take p =
      (curve.take (curve.length - p)).drop (curve.length - 2 * p) := by
    rw [List.take_drop]
    have h4 : curve.length - 2 * p + p = curve.length - p := by omega
    rw [h4]
  rw [h3]

theorem is_period_stable_of_short (curve : List ℚ) (p : Nat) (tol : ℚ)
    (h : curve.length < 2 * p) :
    is_period_stable curve p tol = false := by
  unfold is_period_stable
  rw [(return_periods_eq_none_iff curve p).2 h]

theorem find?_range'_eq_some_iff (f : Nat → Bool) (n : Nat) :
    ∀ (s p : Nat), ((List.range' s n).find? f = some p ↔
      (s ≤ p ∧ p < s + n ∧ f p = true ∧
       ∀ q, s ≤ q → q < p → f q = false)) := by
  induction n with
  | zero =>
    intro s p
    constructor
    · intro h
      simp at h
    · rintro ⟨h1, h2, -, -⟩
      omega
  | succ n ih =>
    intro s p
    rw [List.range'_succ]
    by_cases hfs : f s = true
    · rw [List.find?_cons_of_pos _ hfs]
      constructor
      · intro h
        have hps : p = s := by
          have := Option.some.inj h
          omega
        subst hps
        exact ⟨Nat.le_refl _, by omega, hfs,
          fun q hq1 hq2 => absurd hq1 (by omega)⟩
      · rintro ⟨hsp, -, hfp, hmin⟩
        by_cases hps : p = s
        · subst hps; rfl
        · have hs := hmin s (Nat.le_refl _) (by omega)
          rw [hfs] at hs
          cases hs
    · have hfs' : f s = false := by
        cases h : f s
        · rfl
        · exact absurd h hfs
      rw [List.find?_cons_of_neg _ hfs]
      rw [ih (s + 1) p]
      constructor
      · rintro ⟨h1, h2, h3, h4⟩
        refine ⟨by omega, by omega, h3, fun q hq1 hq2 => ?_⟩
        rcases Nat.eq_or_lt_of_le hq1 with hq | hq
        · exact hq ▸ hfs'
        · exact h4 q (by omega) hq2
      · rintro ⟨h1, h2, h3, h4⟩
        have hps : p ≠ s := by
          intro hps
          rw [hps] at h3
          rw [h3] at hfs'
          cases hfs'
        exact ⟨by omega, by omega, h3,
          fun q hq1 hq2 => h4 q (by omega) hq2⟩

/-- C5: `return_periods` fails (raises `ValueError`, modelled as `none`)
exactly when the curve has fewer than `2 * period` points; otherwise it
returns the last `period` values and the `period` values immediately
preceding them. -/
theorem return_periods_spec (curve : List ℚ) (p : Nat) (hp : 1 ≤ p) :
    (return_periods curve p = none ↔ curve.length < 2 * p) ∧
    (2 * p ≤ curve.length →
      return_periods curve p =
        some (curve.drop (curve.length - p),
              (curve.drop (curve.length - 2 * p)).take p)) :=
  ⟨return_periods_eq_none_iff curve p,
   fun hlen => return_periods_eq_some curve p hp hlen⟩

/-- Witness for C5 at the spec's own example: a curve of length 4 with
period 2 splits into `curve[2:4]` and `curve[0:2]`; length 2 with period 2
fails. -/
theorem return_periods_spec_witness :
    return_periods [(0 : ℚ), 1, 2, 3] 2 = some ([2, 3], [0, 1]) := by
  have h := (return_periods_spec [(0 : ℚ), 1, 2, 3] 2 (by decide)).2 (by decide)
  simpa using h

theorem stable_period_characterization (curve : List ℚ) (mp : Nat)
    (tol : ℚ) :
    (∀ p, stable_period curve mp tol = some p ↔
      (1 ≤ p ∧ p ≤ mp ∧ is_period_stable curve p tol = true ∧
       ∀ q, 1 ≤ q → q < p → is_period_stable curve q tol = false)) ∧
    (stable_period curve mp tol = none ↔
      ∀ p, 1 ≤ p → p ≤ mp → is_period_stable curve p tol = false) := by
  constructor
  · intro p
    unfold stable_period
    rw [find?_range'_eq_some_iff]
    constructor
    · rintro ⟨h1, h2, h3, h4⟩
      exact ⟨h1, by omega, h3, h4⟩
    · rintro ⟨h1, h2, h3, h4⟩
      exact ⟨h1, by omega, h3, h4⟩
  · unfold stable_period
    rw [List.find?_eq_none]
    constructor
    · intro h p hp1 hp2
      have hmem : p ∈ List.range' 1 mp := by
        rw [List.mem_range']
        exact ⟨p - 1, by omega, by omega⟩
      have := h p hmem
      cases hb : is_period_stable curve p tol
      · rfl
      · exact absurd hb this
    · intro h x hx
      rw [List.mem_range'] at hx
      obtain ⟨i, hi, hxi⟩ := hx
      have := h x (by omega) (by omega)
      intro hb
      rw [this] at hb
      cases hb

/-- C6: `stable_period` returns the smallest period in `1 .. max_period`
that is stable under `is_period_stable`, and `none` exactly when no
candidate in that range is stable. -/
theorem stable_period_minimal_spec (curve : List ℚ) (mp : Nat) (tol : ℚ) :
    (∀ p, stable_period curve mp tol = some p ↔
      (1 ≤ p ∧ p ≤ mp ∧ is_period_stable curve p tol = true ∧
       ∀ q, 1 ≤ q → q < p → is_period_stable curve q tol = false)) ∧
    (stable_period curve mp tol = none ↔
      ∀ p, 1 ≤ p → p ≤ mp → is_period_stable curve p tol = false) :=
  stable_period_characterization curve mp tol

/-- C8: the logistic map evaluator computes exactly `r * x * (1 - x)`, with
the spec's concrete instances. -/
theorem logistic_spec :
    (∀ x r : ℚ, logistic x r = r * x * (1 - x)) ∧
    logistic (1 / 2) 1 = 1 / 4 ∧
    logistic (-1) 1 = -2 ∧
    (∀ r : ℚ, logistic 0 r = 0) := by
  refine ⟨fun x r => rfl, by norm_num [logistic], by norm_num [logistic],
    fun r => by norm_num [logistic]⟩

theorem allclose_cons (x y : ℚ) (a b : List ℚ) (rtol : ℚ) :
    allclose (x :: a) (y :: b) rtol =
      (decide (|x - y| ≤ NUMPY_ATOL + rtol * |y|) && allclose a b rtol) := rfl

theorem allclose_eq_true_iff (rtol : ℚ) :
    ∀ (a b : List ℚ), a.length = b.length →
      (allclose a b rtol = true ↔
        ∀ j, j < a.length →
          |a.getD j 0 - b.getD j 0| ≤ NUMPY_ATOL + rtol * |b.getD j 0|) := by
  intro a
  induction a with
  | nil =>
    intro b h
    simp [allclose]
  | cons x a ih =>
    intro b h
    cases b with
    | nil => simp at h
    | cons y b =>
      simp only [List.length_cons, Nat.succ_inj'] at h
      rw [allclose_cons, Bool.and_eq_true, decide_eq_true_eq, ih b h]
      constructor
      · rintro ⟨h0, hrest⟩ j hj
        cases j with
        | zero => simpa using h0
        | succ j =>
          simpa using hrest j (by simpa using hj)
      · intro hall
        refine ⟨by simpa using hall 0 (by simp), fun j hj => ?_⟩
        simpa using hall (j + 1) (by simpa using hj)

theorem getD_drop (l : List ℚ) (m j : Nat) :
    (l.drop m).getD j 0 = l.getD (m + j) 0 := by
  simp [List.getD_eq_getElem?_getD, List.getElem?_drop]

theorem getD_take_of_lt (l : List ℚ) (p j : Nat) (h : j < p) :
    (l.take p).getD j 0 = l.getD j 0 := by
  simp [List.getD_eq_getElem?_getD, List.getElem?_take_of_lt h]

theorem is_period_stable_indexed (curve : List ℚ) (p : Nat) (tol : ℚ)
    (hp : 1 ≤ p) :
    is_period_stable curve p tol = true ↔
      (2 * p ≤ curve.length ∧ ∀ j, j < p →
        |curve.getD (curve.length - p + j) 0 -
           curve.getD (curve.length - 2 * p + j) 0| ≤
          NUMPY_ATOL + tol * |curve.getD (curve.length - 2 * p + j) 0|) := by
  by_cases hlen : 2 * p ≤ curve.length
  · unfold is_period_stable
    rw [return_periods_eq_some curve p hp hlen]
    show allclose (curve.drop (curve.length - p))
        ((curve.drop (curve.length - 2 * p)).take p) tol = true ↔ _
    have hfw : (curve.drop (curve.length - p)).length = p := by
      rw [List.length_drop]; omega
    have hsw : ((curve.drop (curve.length - 2 * p)).take p).length = p := by
      rw [List.length_take, List.length_drop]; omega
    rw [allclose_eq_true_iff tol _ _ (by rw [hfw, hsw]), hfw]
    constructor
    · intro h
      refine ⟨hlen, fun j hj => ?_⟩
      have hj' := h j hj
      rwa [getD_drop, getD_take_of_lt _ _ _ hj, getD_drop] at hj'
    · rintro ⟨-, h⟩ j hj
      rw [getD_drop, getD_take_of_lt _ _ _ hj, getD_drop]
      exact h j hj
  · rw [is_period_stable_of_short curve p tol (by omega)]
    constructor
    · intro h
      simp at h
    · rintro ⟨h1, -⟩
      omega

/-- C4, amended: `is_period_stable` is true iff the curve has at least
`2 * period` points and every element of the last window is within
`atol + tolerance * |b|` of the corresponding element `b` of the preceding
window, where `atol = 1e-8` is numpy.allclose's default absolute
tolerance, which the source leaves in place.  (The claim's formula
`|a - b| <= tolerance * |b|` omits the absolute term; see the
counterexample.) -/
theorem is_period_stable_atol_spec (curve : List ℚ) (p : Nat) (tol : ℚ)
    (hp : 1 ≤ p) :
    is_period_stable curve p tol = true ↔
      (2 * p ≤ curve.length ∧ ∀ j, j < p →
        |curve.getD (curve.length - p + j) 0 -
           curve.getD (curve.length - 2 * p + j) 0| ≤
          NUMPY_ATOL + tol * |curve.getD (curve.length - 2 * p + j) 0|) :=
  is_period_stable_indexed curve p tol hp

/-- Witness for C4's amended theorem at the spec's example
`isPeriodStable([0,1,0,1], 2) == true`. -/
theorem is_period_stable_atol_spec_witness :
    is_period_stable [(0 : ℚ), 1, 0, 1] 2 (1 / 1000000) = true :=
  (is_period_stable_atol_spec [(0 : ℚ), 1, 0, 1] 2 (1 / 1000000)
    (by decide)).2 (by with_unfolding_all decide)

/-- C4 counterexample: with the second window element `b = 0` and last
window element `a = 1e-9`, the claim's elementwise bound
`|a - b| <= tolerance * |b|` is violated, yet `is_period_stable` returns
true, because numpy.allclose also grants its default absolute tolerance
`1e-8`. -/
theorem is_period_stable_rtol_only_counterexample :
    return_periods [0, 1 / 1000000000] 1 = some ([1 / 1000000000], [0]) ∧
    is_period_stable [0, 1 / 1000000000] 1 (1 / 1000000) = true ∧
    ¬ (|(1 : ℚ) / 1000000000 - 0| ≤ (1 / 1000000) * |(0 : ℚ)|) := by
  refine ⟨?_, by with_unfolding_all decide, by norm_num⟩
  have h := return_periods_eq_some [0, 1 / 1000000000] 1 (by decide) (by decide)
  simpa using h

theorem isSome_of_pyTruthy {o : Option Nat} (h : pyTruthy o = true) :
    o.isSome = true := by
  cases o with
  | none => simp [pyTruthy] at h
  | some n => rfl

/-- C1, amended: the engine line
`period = periods[0] if numpy.all(periods) else nan` declares a parameter
period as soon as every row reports *some* (nonzero) period — the rows
need not agree — and the declared value is then the **first row's**
period; the parameter is left undetermined only when some row reports no
period.  (`stable_period` never returns 0, so the `some 0 ∉ periods`
hypothesis holds at every call site.) -/
theorem aggregate_period_first_some (periods : List (Option Nat)) (p : Nat)
    (hz : some 0 ∉ periods) :
    aggregate_period periods = .ok (some p) ↔
      (periods.head? = some (some p) ∧
       ∀ o ∈ periods, o.isSome = true) := by
  unfold aggregate_period
  by_cases hall : periods.all pyTruthy = true
  · rw [if_pos hall]
    cases periods with
    | nil => simp
    | cons q rest =>
      show Except.ok q = .ok (some p) ↔ _
      rw [List.all_eq_true] at hall
      constructor
      · intro h
        have hq := Except.ok.inj h
        subst hq
        exact ⟨by simp, fun o ho => isSome_of_pyTruthy (hall o ho)⟩
      · rintro ⟨hhead, -⟩
        simp only [List.head?_cons, Option.some.injEq] at hhead
        rw [hhead]
  · rw [if_neg hall]
    constructor
    · intro h
      have := Except.ok.inj h
      simp at this
    · rintro ⟨hhead, hsome⟩
      exfalso
      apply hall
      rw [List.all_eq_true]
      intro o ho
      have hs := hsome o ho
      cases o with
      | none => simp at hs
      | some n =>
        have hn : n ≠ 0 := by
          intro hn0
          subst hn0
          exact hz ho
        simp [pyTruthy, hn]

/-- Witness for C1's amended theorem: rows reporting periods 1 and 2 —
disagreeing — still yield the first row's period 1. -/
theorem aggregate_period_first_some_witness :
    aggregate_period [some 1, some 2] = .ok (some 1) :=
  (aggregate_period_first_some [some 1, some 2] 1 (by decide)).2
    ⟨by decide, by decide⟩

/-- C1 counterexample: parameter `r = 13/3` has the exact fixed point
`10/13` and the exact 2-cycle `12/13 -> 4/13`.  At loop iteration 4 the
two rows' tested prefixes are stable with *different* periods (1 and 2),
yet `calculate_curves` declares period 1 (the first row's) instead of
leaving the parameter undetermined as the claim requires. -/
theorem calculate_curves_disagreeing_rows_counterexample :
    computedCurve (13 / 3) (10 / 13) 4 = [10 / 13, 10 / 13, 10 / 13, 10 / 13] ∧
    computedCurve (13 / 3) (12 / 13) 4 = [12 / 13, 4 / 13, 12 / 13, 4 / 13] ∧
    stable_period [10 / 13, 10 / 13, 10 / 13, 10 / 13] 12 0 = some 1 ∧
    stable_period [12 / 13, 4 / 13, 12 / 13, 4 / 13] 12 0 = some 2 ∧
    resultPeriod (calculate_curves [10 / 13, 12 / 13] [13 / 3] 12 6 0) =
      [some 1] :=
  ⟨by with_unfolding_all decide, by with_unfolding_all decide,
   by with_unfolding_all decide, by with_unfolding_all decide,
   by with_unfolding_all decide⟩

/-! Helper lemmas about the engine. -/

theorem mapExcept_ok_of_forall {α β ε : Type} {f : α → Except ε β}
    {g : α → β} (l : List α) (h : ∀ a ∈ l, f a = .ok (g a)) :
    mapExcept f l = .ok (l.map g) := by
  induction l with
  | nil => rfl
  | cons a as ih =>
    have ha := h a (List.mem_cons_self a as)
    have hrest := ih (fun x hx => h x (List.mem_cons_of_mem a hx))
    unfold mapExcept
    rw [ha, hrest]
    rfl

theorem mapExcept_isOk_of_forall {α β ε : Type} {f : α → Except ε β}
    (l : List α) (h : ∀ a ∈ l, ∃ b, f a = .ok b) :
    ∃ bs, mapExcept f l = .ok bs := by
  induction l with
  | nil => exact ⟨[], rfl⟩
  | cons a as ih =>
    obtain ⟨b, hb⟩ := h a (List.mem_cons_self a as)
    obtain ⟨bs, hbs⟩ := ih (fun x hx => h x (List.mem_cons_of_mem a hx))
    refine ⟨b :: bs, ?_⟩
    unfold mapExcept
    rw [hb, hbs]

theorem mapExcept_ok_length {α β ε : Type} {f : α → Except ε β} :
    ∀ {l : List α} {bs : List β}, mapExcept f l = .ok bs →
      bs.length = l.length := by
  intro l
  induction l with
  | nil =>
    intro bs h
    have h' : [] = bs := Except.ok.inj h
    subst h'
    rfl
  | cons a as ih =>
    intro bs h
    unfold mapExcept at h
    cases hfa : f a with
    | error e => rw [hfa] at h; cases h
    | ok b =>
      rw [hfa] at h
      cases hrest : mapExcept f as with
      | error e => rw [hrest] at h; cases h
      | ok cs =>
        rw [hrest] at h
        have hb := Except.ok.inj h
        subst hb
        simp [ih hrest]

theorem mapExcept_ok_mem {α β ε : Type} {f : α → Except ε β} :
    ∀ {l : List α} {bs : List β}, mapExcept f l = .ok bs →
      ∀ b ∈ bs, ∃ a ∈ l, f a = .ok b := by
  intro l
  induction l with
  | nil =>
    intro bs h b hb
    have : Except.ok (ε := ε) [] = .ok bs := h
    have hbs := Except.ok.inj this
    subst hbs
    simp at hb
  | cons a as ih =>
    intro bs h b hb
    unfold mapExcept at h
    cases hfa : f a with
    | error e => rw [hfa] at h; cases h
    | ok b0 =>
      rw [hfa] at h
      cases hrest : mapExcept f as with
      | error e => rw [hrest] at h; cases h
      | ok cs =>
        rw [hrest] at h
        have hbs := Except.ok.inj h
        subst hbs
        rcases List.mem_cons.1 hb with hb0 | hbcs
        · subst hb0
          exact ⟨a, List.mem_cons_self a as, hfa⟩
        · obtain ⟨a', ha', hfa'⟩ := ih hrest b hbcs
          exact ⟨a', List.mem_cons_of_mem a ha', hfa'⟩

theorem zip_map_self {α β γ : Type} (l : List α) (g : α → β)
    (F : α × β → γ) :
    ((l.zip (l.map g)).map F) = l.map (fun a => F (a, g a)) := by
  induction l with
  | nil => rfl
  | cons a as ih => simp only [List.map_cons, List.zip_cons_cons, ih]

theorem getD_map_of_lt {α β : Type} (f : α → β) (l : List α) (i : Nat)
    (h : i < l.length) (d : β) (d' : α) :
    (l.map f).getD i d = f (l.getD i d') := by
  rw [List.getD_eq_getElem?_getD, List.getD_eq_getElem?_getD,
    List.getElem?_map, List.getElem?_eq_getElem h]
  rfl

theorem getD_zip_of_lt {α β : Type} (l : List α) (l' : List β) (i : Nat)
    (h : i < l.length) (h' : i < l'.length) (d : α × β) :
    (l.zip l').getD i d = (l.getD i d.1, l'.getD i d.2) := by
  induction l generalizing l' i with
  | nil => simp at h
  | cons a as ih =>
    cases l' with
    | nil => simp at h'
    | cons b bs =>
      cases i with
      | zero => rfl
      | succ i =>
        simp only [List.zip_cons_cons, List.getD_cons_succ]
        exact ih bs i (by simpa using h) (by simpa using h')

theorem getD_range_of_lt (n i : Nat) (h : i < n) :
    (List.range n).getD i 0 = i := by
  rw [List.getD_eq_getElem?_getD, List.getElem?_range h]
  rfl

theorem runIters_cons (xs : List ℚ) (r : ℚ) (mp : Nat) (tol : ℚ) (i : Nat)
    (rest : List Nat) (p : Option Nat)
    (hp : aggregate_period
      (xs.map (fun x0 => stable_period (computedCurve r x0 i) mp tol)) =
      .ok p) :
    runIters xs r mp tol (i :: rest) =
      if (xs.map (fun x0 => traj r x0 i)).any (fun v => decide (v < 0)) ||
          p.isSome then
        .ok (some i, p.map (fun n : Nat => (n : ℚ)))
      else runIters xs r mp tol rest := by
  simp only [runIters]
  rw [hp]

theorem runIters_cons_error (xs : List ℚ) (r : ℚ) (mp : Nat) (tol : ℚ)
    (i : Nat) (rest : List Nat) (e : String)
    (hp : aggregate_period
      (xs.map (fun x0 => stable_period (computedCurve r x0 i) mp tol)) =
      .error e) :
    runIters xs r mp tol (i :: rest) = .error e := by
  simp only [runIters]
  rw [hp]

theorem runItersS_cons (xs : List ℚ) (r : ℚ) (mp : Nat) (tol : ℚ) (i : Nat)
    (rest : List Nat) (p : Option Nat)
    (hp : aggregate_period
      (xs.map (fun x0 => stable_period (computedCurve r x0 i) mp tol)) =
      .ok p) :
    runItersS xs r mp tol (i :: rest) =
      if (xs.map (fun x0 => traj r x0 i)).any (fun v => decide (v < 0)) ||
          p.isSome then
        .ok (some i, p)
      else runItersS xs r mp tol rest := by
  simp only [runItersS]
  rw [hp]

theorem runItersS_cons_error (xs : List ℚ) (r : ℚ) (mp : Nat) (tol : ℚ)
    (i : Nat) (rest : List Nat) (e : String)
    (hp : aggregate_period
      (xs.map (fun x0 => stable_period (computedCurve r x0 i) mp tol)) =
      .error e) :
    runItersS xs r mp tol (i :: rest) = .error e := by
  simp only [runItersS]
  rw [hp]

theorem aggregate_period_ok_of_ne_nil (periods : List (Option Nat))
    (h : periods ≠ []) : ∃ p, aggregate_period periods = .ok p := by
  unfold aggregate_period
  by_cases hall : periods.all pyTruthy = true
  · rw [if_pos hall]
    cases periods with
    | nil => exact absurd rfl h
    | cons q rest => exact ⟨q, rfl⟩
  · rw [if_neg hall]
    exact ⟨none, rfl⟩

theorem runIters_ok (xs : List ℚ) (hxs : xs ≠ []) (r : ℚ) (mp : Nat)
    (tol : ℚ) :
    ∀ l : List Nat, ∃ br : Option Nat × Option ℚ,
      runIters xs r mp tol l = .ok br ∧
      (br.1 = none ∨ ∃ i ∈ l, br.1 = some i) := by
  intro l
  induction l with
  | nil => exact ⟨(none, none), rfl, Or.inl rfl⟩
  | cons i rest ih =>
    obtain ⟨p, hp⟩ := aggregate_period_ok_of_ne_nil
      (xs.map (fun x0 => stable_period (computedCurve r x0 i) mp tol))
      (by simpa using hxs)
    rw [runIters_cons xs r mp tol i rest p hp]
    by_cases hcond :
        ((xs.map (fun x0 => traj r x0 i)).any (fun v => decide (v < 0)) ||
          p.isSome) = true
    · rw [if_pos hcond]
      exact ⟨(some i, p.map (fun n : Nat => (n : ℚ))), rfl,
        Or.inr ⟨i, List.mem_cons_self i rest, rfl⟩⟩
    · rw [if_neg hcond]
      obtain ⟨br, hbr, hloc⟩ := ih
      refine ⟨br, hbr, ?_⟩
      rcases hloc with hnone | ⟨j, hj, hbj⟩
      · exact Or.inl hnone
      · exact Or.inr ⟨j, List.mem_cons_of_mem i hj, hbj⟩

/-- C7: with `max_iteration = 1` the engine returns only the seeded
initial states at iteration index 0 (the inner loop `range(1, 1)` is
empty, so no update step is computed) and every parameter's period stays
undetermined. -/
theorem calculate_curves_max_iteration_one (xs ps : List ℚ) (mp : Nat)
    (tol : ℚ) :
    calculate_curves xs ps mp 1 tol =
      .ok { value := ps.map (fun _ => xs.map (fun x0 => [some x0])),
            period := ps.map (fun _ => none),
            r := ps, x_0 := xs, iteration := [0] } := by
  unfold calculate_curves
  rw [if_neg (by omega)]
  have hmap : mapExcept
      (fun r => runIters xs r mp tol (List.range' 1 (1 - 1))) ps =
      .ok (ps.map (fun _ => ((none : Option Nat), (none : Option ℚ)))) :=
    mapExcept_ok_of_forall ps (fun a _ => rfl)
  rw [hmap]
  simp only [Except.map]
  rw [zip_map_self, List.map_map]
  rfl

/-- C3, amended: `calculate_curves` performs no input validation.  With a
nonempty initial-state list and `max_iteration >= 1` it never fails —
including for an empty parameter list or any `max_period`, which the claim
calls invalid; `max_iteration = 0` fails only at the seeding step (an
`IndexError`, after the array allocation), and an empty initial-state list
with a nonempty parameter list fails only inside the loop when
`periods[0]` is evaluated. -/
theorem calculate_curves_no_fail_fast (xs ps : List ℚ) (mp mi : Nat)
    (tol : ℚ) (hxs : xs ≠ []) (hmi : 1 ≤ mi) :
    (calculate_curves xs ps mp mi tol).isOk = true ∧
    (calculate_curves xs [] mp mi tol).isOk = true ∧
    (calculate_curves xs ps mp 0 tol).isOk = false ∧
    (calculate_curves [] [1] mp 2 tol).isOk = false := by
  refine ⟨?_, ?_, ?_, ?_⟩
  · unfold calculate_curves
    rw [if_neg (by omega)]
    obtain ⟨results, hres⟩ := mapExcept_isOk_of_forall ps
      (fun a _ => by
        obtain ⟨br, hbr, -⟩ :=
          runIters_ok xs hxs a mp tol (List.range' 1 (mi - 1))
        exact ⟨br, hbr⟩)
    rw [hres]
    rfl
  · unfold calculate_curves
    rw [if_neg (by omega)]
    rfl
  · rfl
  · rfl

/-- Witness for C3's amended theorem: the valid input of the spec's own
example runs without failure. -/
theorem calculate_curves_no_fail_fast_witness :
    (calculate_curves [1 / 4] [29 / 10] 12 5 (1 / 1000000)).isOk = true :=
  (calculate_curves_no_fail_fast [1 / 4] [29 / 10] 12 5 (1 / 1000000)
    (by simp) (by omega)).1

/-- C3 counterexample: an empty parameter list — invalid per the claim —
does not fail fast; the call completes and returns a (parameter-less)
result. -/
theorem calculate_curves_empty_parameters_counterexample :
    (calculate_curves [1 / 4] [] 12 10 (1 / 1000000)).isOk = true := rfl

theorem runIters_eq_runItersS (xs : List ℚ) (r : ℚ) (mp : Nat) (tol : ℚ) :
    ∀ l : List Nat, runIters xs r mp tol l =
      (runItersS xs r mp tol l).map
        (fun br => (br.1, br.2.map (fun n : Nat => (n : ℚ)))) := by
  intro l
  induction l with
  | nil => rfl
  | cons i rest ih =>
    cases hp : aggregate_period
        (xs.map (fun x0 => stable_period (computedCurve r x0 i) mp tol)) with
    | error e =>
      rw [runIters_cons_error xs r mp tol i rest e hp,
        runItersS_cons_error xs r mp tol i rest e hp]
      rfl
    | ok p =>
      rw [runIters_cons xs r mp tol i rest p hp,
        runItersS_cons xs r mp tol i rest p hp]
      by_cases hcond :
          ((xs.map (fun x0 => traj r x0 i)).any (fun v => decide (v < 0)) ||
            p.isSome) = true
      · rw [if_pos hcond, if_pos hcond]
        rfl
      · rw [if_neg hcond, if_neg hcond]
        exact ih

theorem mapExcept_map_compat {α β γ ε : Type} {f : α → Except ε β}
    {f' : α → Except ε γ} {h : γ → β}
    (H : ∀ a, f a = (f' a).map h) :
    ∀ l : List α, mapExcept f l = (mapExcept f' l).map (List.map h) := by
  intro l
  induction l with
  | nil => rfl
  | cons a as ih =>
    unfold mapExcept
    rw [H a, ih]
    cases f' a with
    | error e => rfl
    | ok b =>
      cases mapExcept f' as with
      | error e => rfl
      | ok bs => rfl

/-- C9: the two revisions' cores are behaviorally equivalent.  On any
input, `calculate_curves` (src/chaos/main.py) produces exactly the states
array of `calculate_states` (src/main.py) and period annotations related
by the cast of an integer period to the float array entry, with `None`
and NaN (both modelled as `none`) agreeing as the "undetermined"
sentinel; both fail in the same way on the same inputs. -/
theorem calculate_states_calculate_curves_equiv (xs ps : List ℚ)
    (mp mi : Nat) (tol : ℚ) :
    calculate_curves xs ps mp mi tol =
      (calculate_states xs ps mp mi tol).map
        (fun sp =>
          { value := sp.1,
            period := sp.2.map (Option.map (fun n : Nat => (n : ℚ))),
            r := ps, x_0 := xs, iteration := List.range mi }) := by
  unfold calculate_curves calculate_states
  by_cases hmi : mi = 0
  · rw [if_pos hmi, if_pos hmi]
    rfl
  · rw [if_neg hmi, if_neg hmi]
    rw [mapExcept_map_compat
      (fun a => runIters_eq_runItersS xs a mp tol (List.range' 1 (mi - 1))) ps]
    cases hm : mapExcept
        (fun a => runItersS xs a mp tol (List.range' 1 (mi - 1))) ps with
    | error e => rfl
    | ok results =>
      simp only [Except.map]
      rw [List.zip_map_right, List.map_map, List.map_map, List.map_map]
      rfl

theorem calculate_curves_ok_structure (xs ps : List ℚ) (mp mi : Nat)
    (tol : ℚ) (hxs : xs ≠ []) (hmi : 1 ≤ mi) :
    ∃ results : List (Option Nat × Option ℚ),
      results.length = ps.length ∧
      (∀ br ∈ results,
        br.1 = none ∨ ∃ i ∈ List.range' 1 (mi - 1), br.1 = some i) ∧
      calculate_curves xs ps mp mi tol = .ok
        { value := (ps.zip results).map (fun pr => xs.map (fun x0 =>
            (List.range mi).map (fun i =>
              if i ≤ pr.2.1.getD (mi - 1) then some (traj pr.1 x0 i)
              else none))),
          period := results.map Prod.snd,
          r := ps, x_0 := xs, iteration := List.range mi } := by
  obtain ⟨results, hres⟩ := mapExcept_isOk_of_forall ps
    (fun a _ => by
      obtain ⟨br, hbr, -⟩ :=
        runIters_ok xs hxs a mp tol (List.range' 1 (mi - 1))
      exact ⟨br, hbr⟩)
  refine ⟨results, mapExcept_ok_length hres, ?_, ?_⟩
  · intro br hbr
    obtain ⟨a, -, hfa⟩ := mapExcept_ok_mem hres br hbr
    obtain ⟨br', hbr', hloc⟩ :=
      runIters_ok xs hxs a mp tol (List.range' 1 (mi - 1))
    have : br' = br := Except.ok.inj (hbr' ▸ hfa)
    exact this ▸ hloc
  · unfold calculate_curves
    rw [if_neg (by omega), hres]
    rfl

/-- C10: the negative-value stop condition is only ever evaluated on the
newest column, written at iterations `i >= 1`, never on the seeded
iteration-0 values; hence for `max_iteration >= 2` the first update
`logistic(x_0, r)` is always computed and stored at iteration index 1 for
every parameter and every row, negative seeds included. -/
theorem first_update_always_computed (xs ps : List ℚ) (mp mi : Nat)
    (tol : ℚ) (hxs : xs ≠ []) (hmi : 2 ≤ mi) :
    (calculate_curves xs ps mp mi tol).isOk = true ∧
    ∀ d, d < ps.length → ∀ w, w < xs.length →
      resultValue (calculate_curves xs ps mp mi tol) d w 1 =
        some (logistic (xs.getD w 0) (ps.getD d 0)) := by
  obtain ⟨results, hlen, hbrs, hcalc⟩ :=
    calculate_curves_ok_structure xs ps mp mi tol hxs (by omega)
  rw [hcalc]
  refine ⟨rfl, ?_⟩
  intro d hd w hw
  rw [resultValue_ok]
  show ((((ps.zip results).map (fun pr => xs.map (fun x0 =>
    (List.range mi).map (fun i =>
      if i ≤ pr.2.1.getD (mi - 1) then some (traj pr.1 x0 i)
      else none)))).getD d []).getD w []).getD 1 none =
    some (logistic (xs.getD w 0) (ps.getD d 0))
  have hdz : d < (ps.zip results).length := by
    rw [List.length_zip]
    omega
  rw [getD_map_of_lt _ _ d hdz [] ((0 : ℚ), ((none : Option Nat),
    (none : Option ℚ)))]
  rw [getD_zip_of_lt ps results d hd (by omega) _]
  rw [getD_map_of_lt _ _ w hw [] 0]
  have h1mi : 1 < mi := by omega
  rw [getD_map_of_lt _ _ 1 (by simpa using h1mi) none 0]
  rw [getD_range_of_lt mi 1 h1mi]
  have hbound : 1 ≤ (results.getD d (none, none)).1.getD (mi - 1) := by
    have hmem : results.getD d (none, none) ∈ results := by
      have hdr : d < results.length := by omega
      rw [List.getD_eq_getElem?_getD, List.getElem?_eq_getElem hdr]
      exact List.getElem_mem _
    rcases hbrs _ hmem with hnone | ⟨i, hi, hsome⟩
    · rw [hnone]
      simp
      omega
    · rw [hsome]
      rw [List.mem_range'] at hi
      obtain ⟨j, hj, hij⟩ := hi
      simp
      omega
  rw [if_pos hbound]
  rfl

/-- Witness for C10 at a negative seed `x_0 = -1/2`: the first update is
still computed and stored at iteration index 1. -/
theorem first_update_always_computed_witness :
    resultValue (calculate_curves [-1 / 2] [2] 12 3 (1 / 1000000)) 0 0 1 =
      some (logistic (-1 / 2) 2) :=
  (first_update_always_computed [-1 / 2] [2] 12 3 (1 / 1000000)
    (by simp) (by omega)).2 0 (by simp) 0 (by simp)

/-! Behaviour of the engine at an exact fixed point of the map, used to
settle the claim about which prefix the stability check receives. -/

theorem traj_fixed (x0 r : ℚ) (hfix : logistic x0 r = x0) :
    ∀ n, traj r x0 n = x0
  | 0 => rfl
  | n + 1 => by
    show logistic (traj r x0 n) r = x0
    rw [traj_fixed x0 r hfix n, hfix]

theorem computedCurve_one (r x0 : ℚ) : computedCurve r x0 1 = [x0] := rfl

theorem computedCurve_two (r x0 : ℚ) (hfix : logistic x0 r = x0) :
    computedCurve r x0 2 = [x0, x0] := by
  unfold computedCurve
  rw [show List.range 2 = [0, 1] from rfl]
  simp only [List.map_cons, List.map_nil]
  rw [show traj r x0 0 = x0 from rfl, traj_fixed x0 r hfix 1]

theorem stable_period_singleton (x0 : ℚ) (mp : Nat) (tol : ℚ) :
    stable_period [x0] mp tol = none := by
  rw [(stable_period_characterization [x0] mp tol).2]
  intro p hp1 hp2
  exact is_period_stable_of_short _ _ _ (by simp; omega)

theorem stable_period_pair_fixed (x0 : ℚ) (mp : Nat) (tol : ℚ)
    (hmp : 1 ≤ mp) (htol : 0 ≤ tol) :
    stable_period [x0, x0] mp tol = some 1 := by
  rw [(stable_period_characterization [x0, x0] mp tol).1]
  refine ⟨Nat.le_refl 1, hmp, ?_, fun q hq1 hq2 => absurd hq1 (by omega)⟩
  rw [is_period_stable_indexed _ _ _ (Nat.le_refl 1)]
  refine ⟨by simp, fun j hj => ?_⟩
  have hj0 : j = 0 := by omega
  subst hj0
  show |([x0, x0].getD (2 - 1 + 0) 0) - ([x0, x0].getD (2 - 2 + 0) 0)| ≤
    NUMPY_ATOL + tol * |([x0, x0].getD (2 - 2 + 0) 0)|
  rw [show [x0, x0].getD (2 - 1 + 0) 0 = x0 from rfl,
    show [x0, x0].getD (2 - 2 + 0) 0 = x0 from rfl]
  rw [sub_self, abs_zero]
  have h1 : (0 : ℚ) < NUMPY_ATOL := by norm_num [NUMPY_ATOL]
  have h2 : (0 : ℚ) ≤ tol * |x0| := mul_nonneg htol (abs_nonneg x0)
  linarith

theorem runIters_fixed_two (x0 r tol : ℚ) (mp : Nat) (l : List Nat)
    (h0 : 0 ≤ x0) (hfix : logistic x0 r = x0) (htol : 0 ≤ tol)
    (hmp : 1 ≤ mp) :
    runIters [x0] r mp tol (1 :: 2 :: l) = .ok (some 2, some 1) := by
  have hper1 : aggregate_period
      (([x0] : List ℚ).map
        (fun y => stable_period (computedCurve r y 1) mp tol)) = .ok none := by
    simp only [List.map_cons, List.map_nil, computedCurve_one,
      stable_period_singleton]
    rfl
  have hper2 : aggregate_period
      (([x0] : List ℚ).map
        (fun y => stable_period (computedCurve r y 2) mp tol)) =
      .ok (some 1) := by
    simp only [List.map_cons, List.map_nil, computedCurve_two r x0 hfix,
      stable_period_pair_fixed x0 mp tol hmp htol]
    rfl
  rw [runIters_cons [x0] r mp tol 1 (2 :: l) none hper1]
  have hneg1 : (([x0] : List ℚ).map (fun y => traj r y 1)).any
      (fun v => decide (v < 0)) = false := by
    simp only [List.map_cons, List.map_nil, traj_fixed x0 r hfix 1]
    simp [not_lt.2 h0]
  rw [hneg1]
  rw [if_neg (by simp)]
  rw [runIters_cons [x0] r mp tol 2 l (some 1) hper2]
  rw [if_pos (by simp)]
  rfl

/-- C2, amended: after updating iteration `i`, the stability detector is
run on each row's prefix `value[p, row, :i]` — entries `0 .. i-1`,
*excluding* the value just computed at iteration `i`.  Consequently, at an
exact fixed point (stable from the very first update) the engine still
computes and stores iterations 1 and 2, detects period 1 only at loop
iteration 2, and leaves iteration 3 unset. -/
theorem calculate_curves_detects_after_extra_step (x0 r tol : ℚ)
    (mp mi : Nat) (h0 : 0 ≤ x0) (hfix : logistic x0 r = x0)
    (htol : 0 ≤ tol) (hmp : 1 ≤ mp) (hmi : 4 ≤ mi) :
    (calculate_curves [x0] [r] mp mi tol).isOk = true ∧
    resultPeriod (calculate_curves [x0] [r] mp mi tol) = [some 1] ∧
    resultValue (calculate_curves [x0] [r] mp mi tol) 0 0 2 = some x0 ∧
    resultValue (calculate_curves [x0] [r] mp mi tol) 0 0 3 = none := by
  have hfuel : List.range' 1 (mi - 1) = 1 :: 2 :: List.range' 3 (mi - 3) := by
    have h1 : mi - 1 = (mi - 3) + 1 + 1 := by omega
    rw [h1, List.range'_succ, List.range'_succ]
  have hrun : runIters [x0] r mp tol (List.range' 1 (mi - 1)) =
      .ok (some 2, some 1) := by
    rw [hfuel]
    exact runIters_fixed_two x0 r tol mp _ h0 hfix htol hmp
  have hmap : mapExcept
      (fun a => runIters [x0] a mp tol (List.range' 1 (mi - 1))) [r] =
      .ok [(some 2, some 1)] := by
    unfold mapExcept
    rw [hrun]
    rfl
  have hcalc : calculate_curves [x0] [r] mp mi tol = .ok
      { value := [[(List.range mi).map
          (fun i => if i ≤ 2 then some (traj r x0 i) else none)]],
        period := [some 1], r := [r], x_0 := [x0],
        iteration := List.range mi } := by
    unfold calculate_curves
    rw [if_neg (by omega), hmap]
    rfl
  rw [hcalc, resultPeriod_ok, resultValue_ok, resultValue_ok]
  refine ⟨rfl, rfl, ?_, ?_⟩
  · show ((List.range mi).map
      (fun i => if i ≤ 2 then some (traj r x0 i) else none)).getD 2 none =
      some x0
    rw [getD_map_of_lt _ _ 2 (by simpa using (by omega : 2 < mi)) none 0,
      getD_range_of_lt mi 2 (by omega)]
    rw [if_pos (by omega)]
    rw [traj_fixed x0 r hfix 2]
  · show ((List.range mi).map
      (fun i => if i ≤ 2 then some (traj r x0 i) else none)).getD 3 none =
      none
    rw [getD_map_of_lt _ _ 3 (by simpa using (by omega : 3 < mi)) none 0,
      getD_range_of_lt mi 3 (by omega)]
    rw [if_neg (by omega)]

/-- Witness for C2's amended theorem at the fixed point `x_0 = 1/2`,
`r = 2`. -/
theorem calculate_curves_detects_after_extra_step_witness :
    resultValue (calculate_curves [1 / 2] [2] 12 4 (1 / 1000000)) 0 0 2 =
      some (1 / 2) :=
  (calculate_curves_detects_after_extra_step (1 / 2) 2 (1 / 1000000) 12 4
    (by norm_num) (by norm_num [logistic]) (by norm_num) (by norm_num)
    (by norm_num)).2.2.1

/-- C2 counterexample: at the fixed point `x_0 = 1/2`, `r = 2`, the
engine stores a value at iteration 2 and stops only then, whereas the
claim's reading (prefix `value[p, row, :i+1]`, embodied by
`calculate_curves_incl`) would already stop at iteration 1 and leave
iteration 2 unset.  The two runs differ exactly at that slot, so the
prefix passed to the detector cannot include the just-computed value. -/
theorem calculate_curves_prefix_counterexample :
    resultValue (calculate_curves [1 / 2] [2] 12 6 (1 / 1000000)) 0 0 2 =
      some (1 / 2) ∧
    resultPeriod (calculate_curves [1 / 2] [2] 12 6 (1 / 1000000)) =
      [some 1] ∧
    resultValue (calculate_curves_incl [1 / 2] [2] 12 6 (1 / 1000000))
      0 0 2 = none ∧
    resultPeriod (calculate_curves_incl [1 / 2] [2] 12 6 (1 / 1000000)) =
      [some 1] :=
  ⟨by with_unfolding_all decide, by with_unfolding_all decide,
   by with_unfolding_all decide, by with_unfolding_all decide⟩
